import Mathlib

/-!
Verification of the content-loading and CLI layers of the paperpauper
repository (`get_content.py`, `summarize.py`).

The loader `get_pdf_markdown` is embedded shallowly: the HTTP fetch, the
PDF-to-markdown collaborator (`partition_file`) and the URL hash (sha256
hexdigest) are parameters of an `Env`; the disk cache (one JSON file per
URL hash, holding `{url, markdown}`) is an explicit association list from
keys to entries; observable side effects (network attempts, sleeps) are
recorded as an event trace.  All definitions follow the Python source
line by line.
-/

namespace PaperPauper

/-- Outcome of one HTTP fetch attempt, i.e. of
`requests.get(url, timeout=30)` followed by `response.raise_for_status()`.
The constructors mirror the `except` clauses of the source in order:
`timeout` stands for `requests.exceptions.Timeout` or `ConnectionError`
(the transient class, retried); `requestError` for any other
`RequestException`, e.g. the `HTTPError` raised by `raise_for_status()` on
a 404 (not retried); `unexpectedError` for any other exception raised
while fetching (not retried); `ok content` for a successful response with
body `content`. -/
inductive FetchResult where
  | timeout : FetchResult
  | requestError : FetchResult
  | unexpectedError : FetchResult
  | ok : String → FetchResult
deriving DecidableEq

/-- Outcome of the PDF-to-markdown collaborator
`partition_file(response.content, output_format="markdown")`, raised
exceptions included.  `partition_file` is called inside the same `try`
block as the fetch, so an exception it raises is dispatched by class by
the surrounding `except` clauses: `timeout` for
`requests.exceptions.Timeout` or `ConnectionError` (first clause — the
loop sleeps and re-enters with a fresh fetch), `requestError` for any
other `RequestException` (no retry), `err` for any other exception
(caught by `except Exception`, no retry), and `ok m` for a successful
conversion to markdown `m`. -/
inductive ConvResult where
  | ok : String → ConvResult
  | timeout : ConvResult
  | requestError : ConvResult
  | err : ConvResult
deriving DecidableEq

/-- The loader's external collaborators: `fetch url attempt` is the outcome
of the HTTP request on the given (0-based) attempt; `partition_file` is the
conversion collaborator; `sha256` is the hex digest used as cache key
(`hashlib.sha256(url.encode()).hexdigest()`). -/
structure Env where
  fetch : String → Nat → FetchResult
  partition_file : String → ConvResult
  sha256 : String → String

/-- A loaded document record `{"url": ..., "markdown": ...}` as appended
to `results`. -/
structure Doc where
  url : String
  markdown : String
deriving DecidableEq

/-- A cache entry: the JSON object `{"url": ..., "markdown": ...}` stored
in the file `<sha256(url)>.json`. -/
structure CacheEntry where
  url : String
  markdown : String
deriving DecidableEq

/-- The cache directory: an association list from file keys (sha256 hex
digests) to the entries stored under them. -/
abbrev Cache := List (String × CacheEntry)

/-- `cache_file.exists()` plus `json.load`: look the key up in the cache
directory. -/
def cacheFind : Cache → String → Option CacheEntry
  | [], _ => none
  | (k, e) :: rest, key => if k = key then some e else cacheFind rest key

/-- Observable side effects of the loader, in order: a network fetch
attempt for a url (0-based attempt index), or a
`time.sleep(seconds)`. -/
inductive Event where
  | fetchAttempt : String → Nat → Event
  | sleep : Nat → Event
deriving DecidableEq

/-- `max_retries = 3` from the source. -/
def max_retries : Nat := 3

/-- `retry_delay = 1  # seconds` from the source. -/
def retry_delay : Nat := 1

/-- Result of the `for attempt in range(max_retries)` loop body for one
uncached URL: the record appended to `results`, the cache entry written
(if the conversion succeeded), and the trace of fetches and sleeps. -/
structure LoopResult where
  doc : Doc
  cacheWrite : Option CacheEntry
  events : List Event
deriving DecidableEq

/-- The retry loop `for attempt in range(max_retries)` of the source,
entered at `attempt` with `fuel` iterations of `range` left.  A
`Timeout`/`ConnectionError` — whether raised by the fetch or by
`partition_file`, both being inside the `try` block — hits the first
`except` clause: with `attempt < max_retries - 1` the loop sleeps
`retry_delay * (attempt + 1)` seconds and continues (the next iteration
performs a fresh fetch); on the last attempt it records the failure.  On
a fully successful fetch and conversion it writes the cache entry and
records the markdown; any other `RequestException` and any unexpected
exception each record a failure without retrying.  The loop is always
entered with `fuel = max_retries` at `attempt = 0`, so the `fuel = 0`
base case is never reached (the guard stops at
`attempt = max_retries - 1`). -/
def attemptLoop (env : Env) (url : String) : Nat → Nat → LoopResult
  | _, 0 =>
    { doc := { url := url, markdown := "" }, cacheWrite := none, events := [] }
  | attempt, _fuel + 1 =>
    match env.fetch url attempt with
    | FetchResult.ok content =>
      match env.partition_file content with
      | ConvResult.ok markdown =>
        { doc := { url := url, markdown := markdown },
          cacheWrite := some { url := url, markdown := markdown },
          events := [Event.fetchAttempt url attempt] }
      | ConvResult.timeout =>
        if attempt < max_retries - 1 then
          let rest := attemptLoop env url (attempt + 1) _fuel
          { doc := rest.doc, cacheWrite := rest.cacheWrite,
            events := Event.fetchAttempt url attempt ::
              Event.sleep (retry_delay * (attempt + 1)) :: rest.events }
        else
          { doc := { url := url, markdown := "" }, cacheWrite := none,
            events := [Event.fetchAttempt url attempt] }
      | ConvResult.requestError =>
        { doc := { url := url, markdown := "" }, cacheWrite := none,
          events := [Event.fetchAttempt url attempt] }
      | ConvResult.err =>
        { doc := { url := url, markdown := "" }, cacheWrite := none,
          events := [Event.fetchAttempt url attempt] }
    | FetchResult.timeout =>
      if attempt < max_retries - 1 then
        let rest := attemptLoop env url (attempt + 1) _fuel
        { doc := rest.doc, cacheWrite := rest.cacheWrite,
          events := Event.fetchAttempt url attempt ::
            Event.sleep (retry_delay * (attempt + 1)) :: rest.events }
      else
        { doc := { url := url, markdown := "" }, cacheWrite := none,
          events := [Event.fetchAttempt url attempt] }
    | FetchResult.requestError =>
      { doc := { url := url, markdown := "" }, cacheWrite := none,
        events := [Event.fetchAttempt url attempt] }
    | FetchResult.unexpectedError =>
      { doc := { url := url, markdown := "" }, cacheWrite := none,
        events := [Event.fetchAttempt url attempt] }

/-- One output record together with the events its processing produced. -/
structure Step where
  doc : Doc
  events : List Event
deriving DecidableEq

/-- The body of `for url in urls`: compute the cache key, serve from the
cache if the entry exists (no network, no events), otherwise run the
retry loop and apply its cache write.  Returns the step and the updated
cache. -/
def processUrl (env : Env) (cache : Cache) (url : String) : Step × Cache :=
  let key := env.sha256 url
  match cacheFind cache key with
  | some entry =>
    ({ doc := { url := url, markdown := entry.markdown }, events := [] }, cache)
  | none =>
    let r := attemptLoop env url 0 max_retries
    ({ doc := r.doc, events := r.events },
     match r.cacheWrite with
     | some e => (key, e) :: cache
     | none => cache)

/-- `get_pdf_markdown(urls, cache_dir)`: fold `processUrl` over the input
list, threading the cache, returning one step per input URL in input
order together with the final cache state. -/
def get_pdf_markdown (env : Env) (cache : Cache) : List String → List Step × Cache
  | [] => ([], cache)
  | url :: rest =>
    let p := processUrl env cache url
    let q := get_pdf_markdown env p.2 rest
    (p.1 :: q.1, q.2)

/-! ### The command-line surface of `summarize.py` -/

/-- `_DEFAULT_PDFS` from `summarize.py`. -/
def _DEFAULT_PDFS : List String :=
  ["https://arxiv.org/pdf/2501.12948",
   "https://arxiv.org/pdf/2403.04642",
   "https://arxiv.org/pdf/2501.04519",
   "https://arxiv.org/pdf/2502.11886",
   "https://arxiv.org/pdf/2505.24864",
   "https://arxiv.org/pdf/2505.03335",
   "https://arxiv.org/pdf/2503.14476",
   "https://arxiv.org/pdf/2506.04178",
   "https://arxiv.org/pdf/2410.01679"]

/-- `parser.add_argument("--pdf", type=str, default=",".join(_DEFAULT_PDFS))`
with argparse's default `store` action: each occurrence of `--pdf`
overwrites the previous value, so `args.pdf` is the value of the LAST
occurrence, or the comma-joined default list when the flag is absent.
`flagValues` lists the values given to `--pdf` occurrences in command-line
order. -/
def args_pdf (flagValues : List String) : String :=
  (flagValues.getLast?).getD (String.intercalate "," _DEFAULT_PDFS)

/-- Python `str.split(",")` on the character list: split at every comma,
keeping empty segments (no merging). -/
def splitCommaAux : List Char → List Char → List (List Char)
  | [], acc => [acc.reverse]
  | c :: rest, acc =>
    if c = ',' then acc.reverse :: splitCommaAux rest []
    else splitCommaAux rest (c :: acc)

/-- `args.pdf.split(",")`. -/
def pysplitComma (s : String) : List String :=
  (splitCommaAux s.toList []).map (fun cs => String.mk cs)

/-- `url.strip()`: drop whitespace from both ends. -/
def pystrip (s : String) : String :=
  String.mk (((s.toList.dropWhile Char.isWhitespace).reverse.dropWhile
    Char.isWhitespace).reverse)

/-- `pdf_urls = [url.strip() for url in args.pdf.split(",")]`. -/
def pdf_urls (flagValues : List String) : List String :=
  (pysplitComma (args_pdf flagValues)).map pystrip

/-! ### Helper lemmas -/

/-- The retry loop always reports the URL it was given. -/
theorem attemptLoop_url (env : Env) (url : String) :
    ∀ fuel attempt, (attemptLoop env url attempt fuel).doc.url = url := by
  intro fuel
  induction fuel with
  | zero => intro attempt; rfl
  | succ n ih =>
    intro attempt
    unfold attemptLoop
    cases h : env.fetch url attempt with
    | ok content =>
      cases hc : env.partition_file content with
      | ok m => simp [hc]
      | timeout =>
        by_cases ha : attempt < max_retries - 1
        · simp [hc, ha, ih]
        · simp [hc, ha]
      | requestError => simp [hc]
      | err => simp [hc]
    | timeout =>
      by_cases ha : attempt < max_retries - 1
      · simp [ha, ih]
      · simp [ha]
    | requestError => simp
    | unexpectedError => simp

/-- A step produced by `processUrl` carries the input URL. -/
theorem processUrl_url (env : Env) (cache : Cache) (url : String) :
    (processUrl env cache url).1.doc.url = url := by
  unfold processUrl
  cases h : cacheFind cache (env.sha256 url) with
  | some entry => simp [h]
  | none => simp [h, attemptLoop_url]

/-- `get_pdf_markdown` yields one step per input URL with the URLs in
input order. -/
theorem get_pdf_markdown_urls (env : Env) :
    ∀ (urls : List String) (cache : Cache),
      ((get_pdf_markdown env cache urls).1.map (fun s => s.doc.url)) = urls := by
  intro urls
  induction urls with
  | nil => intro cache; rfl
  | cons u rest ih =>
    intro cache
    simp [get_pdf_markdown, processUrl_url, ih]

/-- The output list has the same length as the input list. -/
theorem get_pdf_markdown_length (env : Env) (cache : Cache) (urls : List String) :
    (get_pdf_markdown env cache urls).1.length = urls.length := by
  have h := get_pdf_markdown_urls env urls cache
  calc (get_pdf_markdown env cache urls).1.length
      = ((get_pdf_markdown env cache urls).1.map (fun s => s.doc.url)).length := by
        simp
    _ = urls.length := by rw [h]

/-- Processing a one-element batch is exactly one pass of the loop body. -/
theorem get_pdf_markdown_singleton (env : Env) (cache : Cache) (url : String) :
    get_pdf_markdown env cache [url] =
      ([(processUrl env cache url).1], (processUrl env cache url).2) := rfl

/-- A URL whose cache entry exists is served from the cache: no events
(hence no network attempt), cache unchanged, markdown read from the
entry. -/
theorem processUrl_hit (env : Env) (cache : Cache) (url : String)
    (e : CacheEntry) (h : cacheFind cache (env.sha256 url) = some e) :
    processUrl env cache url =
      ({ doc := { url := url, markdown := e.markdown }, events := [] }, cache) := by
  simp [processUrl, h]

/-- A URL whose cache entry is absent runs the retry loop and applies its
cache write. -/
theorem processUrl_miss (env : Env) (c : Cache) (url : String)
    (hc : cacheFind c (env.sha256 url) = none) :
    processUrl env c url =
      ({ doc := (attemptLoop env url 0 max_retries).doc,
         events := (attemptLoop env url 0 max_retries).events },
       match (attemptLoop env url 0 max_retries).cacheWrite with
       | some e => (env.sha256 url, e) :: c
       | none => c) := by
  simp [processUrl, hc]

/-- When every fetch of `url` times out, the retry loop performs attempts
0, 1 and 2, sleeping `retry_delay * 1` and `retry_delay * 2` seconds after
the first two, and ends with the empty-markdown record and no cache
write. -/
theorem attemptLoop_all_timeout (env : Env) (url : String)
    (hf : ∀ a, env.fetch url a = FetchResult.timeout) :
    attemptLoop env url 0 max_retries =
      { doc := { url := url, markdown := "" }, cacheWrite := none,
        events := [Event.fetchAttempt url 0, Event.sleep (retry_delay * 1),
                   Event.fetchAttempt url 1, Event.sleep (retry_delay * 2),
                   Event.fetchAttempt url 2] } := by
  simp [attemptLoop, hf, max_retries]

/-- When the first fetch of `url` succeeds and the conversion succeeds
with `m`, the loop stops after attempt 0 with the record and the cache
write `{url, markdown := m}`. -/
theorem attemptLoop_first_success (env : Env) (url content m : String)
    (hf : env.fetch url 0 = FetchResult.ok content)
    (hp : env.partition_file content = ConvResult.ok m) :
    attemptLoop env url 0 max_retries =
      { doc := { url := url, markdown := m },
        cacheWrite := some { url := url, markdown := m },
        events := [Event.fetchAttempt url 0] } := by
  simp [attemptLoop, max_retries, hf, hp]

/-- A cache miss whose first fetch and conversion succeed: one attempt,
the record carries the markdown, and the entry is written under the
URL's key. -/
theorem processUrl_success (env : Env) (cache : Cache) (url content m : String)
    (hc : cacheFind cache (env.sha256 url) = none)
    (hf : env.fetch url 0 = FetchResult.ok content)
    (hp : env.partition_file content = ConvResult.ok m) :
    processUrl env cache url =
      ({ doc := { url := url, markdown := m },
         events := [Event.fetchAttempt url 0] },
       (env.sha256 url, { url := url, markdown := m }) :: cache) := by
  simp [processUrl, hc, attemptLoop_first_success env url content m hf hp]

/-! ### Concrete collaborator environments, used to instantiate the
hypotheses of the claim theorems -/

/-- Every fetch times out. -/
def envTimeout : Env :=
  { fetch := fun _ _ => FetchResult.timeout,
    partition_file := fun _ => ConvResult.err,
    sha256 := fun u => u }

/-- Every fetch ends in an HTTP status error (`raise_for_status`). -/
def envHttpErr : Env :=
  { fetch := fun _ _ => FetchResult.requestError,
    partition_file := fun _ => ConvResult.err,
    sha256 := fun u => u }

/-- Fetch succeeds, conversion raises a non-transient exception. -/
def envConvFail : Env :=
  { fetch := fun _ _ => FetchResult.ok "pdfbytes",
    partition_file := fun _ => ConvResult.err,
    sha256 := fun u => u }

/-- Fetch succeeds, conversion raises `requests.exceptions.Timeout`. -/
def envConvTimeout : Env :=
  { fetch := fun _ _ => FetchResult.ok "pdfbytes",
    partition_file := fun _ => ConvResult.timeout,
    sha256 := fun u => u }

/-- Fetch succeeds with body `"pdfbytes"`, conversion succeeds with
markdown `"# A"`. -/
def envOk : Env :=
  { fetch := fun _ _ => FetchResult.ok "pdfbytes",
    partition_file := fun _ => ConvResult.ok "# A",
    sha256 := fun u => u }

/-! ### Claim theorems -/

/-- C1: for every input list of URLs, `get_pdf_markdown` returns a list
with exactly one record per input URL, in input order, and for every
position the output record's `url` field equals the input URL at that
position — i.e. mapping the `url` field over the output recovers the
input list exactly. -/
theorem C1_output_positionally_aligned (env : Env) (cache : Cache)
    (urls : List String) :
    ((get_pdf_markdown env cache urls).1.map (fun s => s.doc.url)) = urls :=
  get_pdf_markdown_urls env urls cache

/-- C2: for a URL without a cache entry whose fetch raises a timeout or
connection error on every attempt, the loader performs exactly 3 fetch
attempts (events `fetchAttempt url 0/1/2`), sleeps between consecutive
attempts for strictly increasing delays `retry_delay * 1` and
`retry_delay * 2` seconds (base times attempt number), does not sleep
after the final attempt, and returns the record with `markdown = ""`
without writing the cache — stated for the loop body and for the loader
on the one-URL batch. -/
theorem C2_timeout_exhausts_retries (env : Env) (cache : Cache) (url : String)
    (hc : cacheFind cache (env.sha256 url) = none)
    (hf : ∀ a, env.fetch url a = FetchResult.timeout) :
    processUrl env cache url =
      ({ doc := { url := url, markdown := "" },
         events := [Event.fetchAttempt url 0, Event.sleep (retry_delay * 1),
                    Event.fetchAttempt url 1, Event.sleep (retry_delay * 2),
                    Event.fetchAttempt url 2] }, cache) ∧
    get_pdf_markdown env cache [url] =
      ([{ doc := { url := url, markdown := ""},
          events := [Event.fetchAttempt url 0, Event.sleep (retry_delay * 1),
                     Event.fetchAttempt url 1, Event.sleep (retry_delay * 2),
                     Event.fetchAttempt url 2] }], cache) := by
  have h : processUrl env cache url =
      ({ doc := { url := url, markdown := "" },
         events := [Event.fetchAttempt url 0, Event.sleep (retry_delay * 1),
                    Event.fetchAttempt url 1, Event.sleep (retry_delay * 2),
                    Event.fetchAttempt url 2] }, cache) := by
    simp [processUrl, hc, attemptLoop_all_timeout env url hf]
  refine ⟨h, ?_⟩
  rw [get_pdf_markdown_singleton, h]

/-- C2 witness: the all-timeout environment on an empty cache. -/
theorem C2_timeout_exhausts_retries_witness :
    processUrl envTimeout [] "https://x/a.pdf" =
      ({ doc := { url := "https://x/a.pdf", markdown := "" },
         events := [Event.fetchAttempt "https://x/a.pdf" 0, Event.sleep 1,
                    Event.fetchAttempt "https://x/a.pdf" 1, Event.sleep 2,
                    Event.fetchAttempt "https://x/a.pdf" 2] }, []) :=
  (C2_timeout_exhausts_retries envTimeout [] "https://x/a.pdf" rfl
    (fun _ => rfl)).1

/-- C4: for a URL whose cache entry exists, the loader performs zero
network requests (its event trace is empty), leaves the cache unchanged,
and returns the markdown stored in the entry, unconditionally (no
freshness check appears anywhere in the model). -/
theorem C4_cache_hit_skips_network (env : Env) (cache : Cache) (url : String)
    (e : CacheEntry) (h : cacheFind cache (env.sha256 url) = some e) :
    processUrl env cache url =
      ({ doc := { url := url, markdown := e.markdown }, events := [] }, cache) ∧
    get_pdf_markdown env cache [url] =
      ([{ doc := { url := url, markdown := e.markdown }, events := [] }], cache) := by
  refine ⟨processUrl_hit env cache url e h, ?_⟩
  rw [get_pdf_markdown_singleton, processUrl_hit env cache url e h]

/-- C4 witness: a one-entry cache, environment whose network always
fails — the stored markdown is returned anyway and no event occurs. -/
theorem C4_cache_hit_skips_network_witness :
    processUrl envTimeout
        [("https://x/a.pdf", { url := "https://x/a.pdf", markdown := "# A" })]
        "https://x/a.pdf" =
      ({ doc := { url := "https://x/a.pdf", markdown := "# A" }, events := [] },
       [("https://x/a.pdf", { url := "https://x/a.pdf", markdown := "# A" })]) :=
  (C4_cache_hit_skips_network envTimeout
    [("https://x/a.pdf", { url := "https://x/a.pdf", markdown := "# A" })]
    "https://x/a.pdf" { url := "https://x/a.pdf", markdown := "# A" }
    (by rfl)).1

/-- C5: for a URL without a cache entry whose fetch yields an HTTP error
status (`raise_for_status` raises, a `RequestException` that is not a
timeout or connection error), the loader performs exactly one fetch
attempt — the event trace is the single attempt 0, with no sleep and no
retry — and returns the record with `markdown = ""`. -/
theorem C5_http_error_no_retry (env : Env) (cache : Cache) (url : String)
    (hc : cacheFind cache (env.sha256 url) = none)
    (hf : env.fetch url 0 = FetchResult.requestError) :
    processUrl env cache url =
      ({ doc := { url := url, markdown := "" },
         events := [Event.fetchAttempt url 0] }, cache) ∧
    get_pdf_markdown env cache [url] =
      ([{ doc := { url := url, markdown := "" },
          events := [Event.fetchAttempt url 0] }], cache) := by
  have h : processUrl env cache url =
      ({ doc := { url := url, markdown := "" },
         events := [Event.fetchAttempt url 0] }, cache) := by
    simp [processUrl, hc, attemptLoop, max_retries, hf]
  refine ⟨h, ?_⟩
  rw [get_pdf_markdown_singleton, h]

/-- C5 witness: the HTTP-error environment on an empty cache. -/
theorem C5_http_error_no_retry_witness :
    processUrl envHttpErr [] "https://x/a.pdf" =
      ({ doc := { url := "https://x/a.pdf", markdown := "" },
         events := [Event.fetchAttempt "https://x/a.pdf" 0] }, []) :=
  (C5_http_error_no_retry envHttpErr [] "https://x/a.pdf" rfl rfl).1

/-- C6 counterexample: `partition_file` is called inside the same `try`
block as the fetch, so when it raises `requests.exceptions.Timeout` (or
`ConnectionError`) the first `except` clause catches it and the loop
sleeps and re-enters with a fresh fetch — the trace shows three fetch
attempts with sleeps between them, not the single attempt the claim's
"any exception, no retry and no additional fetch attempt" requires. -/
theorem C6_conversion_timeout_is_retried :
    processUrl envConvTimeout [] "https://x/a.pdf" =
      ({ doc := { url := "https://x/a.pdf", markdown := "" },
         events := [Event.fetchAttempt "https://x/a.pdf" 0, Event.sleep 1,
                    Event.fetchAttempt "https://x/a.pdf" 1, Event.sleep 2,
                    Event.fetchAttempt "https://x/a.pdf" 2] }, []) ∧
    (processUrl envConvTimeout [] "https://x/a.pdf").1.events ≠
      [Event.fetchAttempt "https://x/a.pdf" 0] := by
  exact ⟨by decide, by decide⟩

/-- C6 (amended): for a URL without a cache entry whose fetch succeeds
but whose conversion raises an exception other than the transient
requests classes (`Timeout`/`ConnectionError`), the loader records the
failure immediately: one fetch attempt in the trace, no sleep, no
further attempt, `markdown = ""`, and no cache write (the cache is
unchanged).  A conversion exception of a transient requests class is
instead caught by the first `except` clause and retried with backoff
like a network timeout. -/
theorem C6_nontransient_conversion_failure_immediate (env : Env)
    (cache : Cache) (url content : String)
    (hc : cacheFind cache (env.sha256 url) = none)
    (hf : env.fetch url 0 = FetchResult.ok content)
    (hp : env.partition_file content = ConvResult.requestError ∨
          env.partition_file content = ConvResult.err) :
    processUrl env cache url =
      ({ doc := { url := url, markdown := "" },
         events := [Event.fetchAttempt url 0] }, cache) ∧
    get_pdf_markdown env cache [url] =
      ([{ doc := { url := url, markdown := "" },
          events := [Event.fetchAttempt url 0] }], cache) := by
  have h : processUrl env cache url =
      ({ doc := { url := url, markdown := "" },
         events := [Event.fetchAttempt url 0] }, cache) := by
    rcases hp with hp | hp <;>
      simp [processUrl, hc, attemptLoop, max_retries, hf, hp]
  refine ⟨h, ?_⟩
  rw [get_pdf_markdown_singleton, h]

/-- C6 witness: fetch succeeds, conversion raises a non-transient
exception, empty cache. -/
theorem C6_nontransient_conversion_failure_immediate_witness :
    processUrl envConvFail [] "https://x/a.pdf" =
      ({ doc := { url := "https://x/a.pdf", markdown := "" },
         events := [Event.fetchAttempt "https://x/a.pdf" 0] }, []) :=
  (C6_nontransient_conversion_failure_immediate envConvFail []
    "https://x/a.pdf" "pdfbytes" rfl rfl (Or.inr rfl)).1

/-! ### Provenance of markdown values (for C3 and C7) -/

/-- The markdown values the loader can legitimately report: the empty
failure sentinel, a value read from an entry of the initial cache, or the
output of a successful conversion of successfully fetched content. -/
def MdProvenance (env : Env) (cache0 : Cache) (m : String) : Prop :=
  m = "" ∨ (∃ p, p ∈ cache0 ∧ (p.2).markdown = m) ∨
    (∃ u a content, env.fetch u a = FetchResult.ok content ∧
      env.partition_file content = ConvResult.ok m)

/-- Every entry of `c` carries markdown with provenance relative to the
initial cache `cache0`. -/
def CacheGood (env : Env) (cache0 c : Cache) : Prop :=
  ∀ p, p ∈ c → MdProvenance env cache0 (p.2).markdown

theorem cacheGood_refl (env : Env) (cache0 : Cache) :
    CacheGood env cache0 cache0 :=
  fun p hp => Or.inr (Or.inl ⟨p, hp, rfl⟩)

/-- A found cache entry is an entry of the cache. -/
theorem cacheFind_mem :
    ∀ (c : Cache) (k : String) (e : CacheEntry),
      cacheFind c k = some e → ∃ p, p ∈ c ∧ p.2 = e := by
  intro c
  induction c with
  | nil => intro k e h; cases h
  | cons q rest ih =>
    intro k e h
    obtain ⟨k0, e0⟩ := q
    by_cases hk : k0 = k
    · rw [cacheFind, if_pos hk] at h
      exact ⟨(k0, e0), List.mem_cons_self _ _, by injection h⟩
    · rw [cacheFind, if_neg hk] at h
      obtain ⟨p, hp, he⟩ := ih k e h
      exact ⟨p, List.mem_cons_of_mem _ hp, he⟩

/-- The retry loop reports either the failure sentinel or the output of a
successful conversion of a successful fetch of this URL. -/
theorem attemptLoop_md (env : Env) (url : String) :
    ∀ fuel attempt,
      (attemptLoop env url attempt fuel).doc.markdown = "" ∨
      ∃ a content, env.fetch url a = FetchResult.ok content ∧
        env.partition_file content =
          ConvResult.ok (attemptLoop env url attempt fuel).doc.markdown := by
  intro fuel
  induction fuel with
  | zero => intro attempt; left; rfl
  | succ n ih =>
    intro attempt
    cases h : env.fetch url attempt with
    | ok content =>
      cases hp : env.partition_file content with
      | ok m =>
        right
        exact ⟨attempt, content, h, by simp [attemptLoop, h, hp]⟩
      | timeout =>
        by_cases ha : attempt < max_retries - 1
        · simpa [attemptLoop, h, hp, ha] using ih (attempt + 1)
        · left; simp [attemptLoop, h, hp, ha]
      | requestError => left; simp [attemptLoop, h, hp]
      | err => left; simp [attemptLoop, h, hp]
    | timeout =>
      by_cases ha : attempt < max_retries - 1
      · simpa [attemptLoop, h, ha] using ih (attempt + 1)
      · left; simp [attemptLoop, h, ha]
    | requestError => left; simp [attemptLoop, h]
    | unexpectedError => left; simp [attemptLoop, h]

/-- A cache write by the retry loop records exactly the markdown of a
successful conversion of a successful fetch, paired with the URL. -/
theorem attemptLoop_cacheWrite (env : Env) (url : String) :
    ∀ fuel attempt e,
      (attemptLoop env url attempt fuel).cacheWrite = some e →
      (attemptLoop env url attempt fuel).doc.markdown = e.markdown ∧
      e = { url := url, markdown := e.markdown } ∧
      ∃ a content, env.fetch url a = FetchResult.ok content ∧
        env.partition_file content = ConvResult.ok e.markdown := by
  intro fuel
  induction fuel with
  | zero => intro attempt e h; cases h
  | succ n ih =>
    intro attempt e h
    cases hf : env.fetch url attempt with
    | ok content =>
      cases hp : env.partition_file content with
      | ok m =>
        simp only [attemptLoop, hf, hp, Option.some.injEq] at h
        subst h
        exact ⟨by simp [attemptLoop, hf, hp], rfl, attempt, content, hf, hp⟩
      | timeout =>
        by_cases ha : attempt < max_retries - 1
        · simp only [attemptLoop, hf, hp, if_pos ha] at h
          obtain ⟨h1, h2, a, content2, hfa, hpa⟩ := ih (attempt + 1) e h
          exact ⟨by simp [attemptLoop, hf, hp, ha, h1], h2, a, content2, hfa,
            hpa⟩
        · simp [attemptLoop, hf, hp, if_neg ha] at h
      | requestError => simp [attemptLoop, hf, hp] at h
      | err => simp [attemptLoop, hf, hp] at h
    | timeout =>
      by_cases ha : attempt < max_retries - 1
      · simp only [attemptLoop, hf, if_pos ha] at h
        obtain ⟨h1, h2, a, content, hfa, hpa⟩ := ih (attempt + 1) e h
        exact ⟨by simp [attemptLoop, hf, ha, h1], h2, a, content, hfa, hpa⟩
      · simp [attemptLoop, hf, if_neg ha] at h
    | requestError => simp [attemptLoop, hf] at h
    | unexpectedError => simp [attemptLoop, hf] at h

/-- One pass of the loop body preserves provenance: the reported markdown
has provenance, and the updated cache is still provenance-good. -/
theorem processUrl_provenance (env : Env) (cache0 : Cache)
    (c : Cache) (url : String) (hgood : CacheGood env cache0 c) :
    MdProvenance env cache0 (processUrl env c url).1.doc.markdown ∧
    CacheGood env cache0 (processUrl env c url).2 := by
  cases hc : cacheFind c (env.sha256 url) with
  | some entry =>
    rw [processUrl_hit env c url entry hc]
    obtain ⟨p, hp, he⟩ := cacheFind_mem c (env.sha256 url) entry hc
    have h := hgood p hp
    rw [he] at h
    exact ⟨h, hgood⟩
  | none =>
    rw [processUrl_miss env c url hc]
    constructor
    · rcases attemptLoop_md env url max_retries 0 with h | ⟨a, content, hf, hp⟩
      · exact Or.inl h
      · exact Or.inr (Or.inr ⟨url, a, content, hf, hp⟩)
    · cases hw : (attemptLoop env url 0 max_retries).cacheWrite with
      | none => exact hgood
      | some e =>
        obtain ⟨_, _, a, content, hf, hp⟩ :=
          attemptLoop_cacheWrite env url max_retries 0 e hw
        intro p hpm
        rcases List.mem_cons.mp hpm with hpe | hpc
        · right; right
          refine ⟨url, a, content, hf, ?_⟩
          rw [hpe]
          exact hp
        · exact hgood p hpc

/-- The loader maps each URL to a step whose url is that URL and whose
markdown has provenance, for any provenance-good starting cache. -/
theorem get_pdf_markdown_provenance (env : Env) (cache0 : Cache) :
    ∀ (urls : List String) (c : Cache), CacheGood env cache0 c →
      List.Forall₂ (fun (s : Step) (u : String) =>
          s.doc.url = u ∧ MdProvenance env cache0 s.doc.markdown)
        (get_pdf_markdown env c urls).1 urls := by
  intro urls
  induction urls with
  | nil => intro c _; exact List.Forall₂.nil
  | cons u rest ih =>
    intro c hg
    obtain ⟨h1, h2⟩ := processUrl_provenance env cache0 c u hg
    exact List.Forall₂.cons ⟨processUrl_url env c u, h1⟩ (ih _ h2)

/-- C3: the loader is a total function (it returns a full list of records
in every combination of per-URL outcomes — there is no exceptional exit
in the model), pairs each input URL with a record whose `url` field is
that URL, and the record's `markdown` field is always a present string:
either the output of a successful conversion, a value read from a
pre-existing cache entry, or the empty-string sentinel — so every failure
mode (retry exhaustion, HTTP status error, conversion failure, unexpected
error) yields exactly `markdown = ""`. -/
theorem C3_failures_become_empty_markdown (env : Env) (cache : Cache)
    (urls : List String) :
    List.Forall₂ (fun (s : Step) (u : String) =>
        s.doc.url = u ∧ MdProvenance env cache s.doc.markdown)
      (get_pdf_markdown env cache urls).1 urls :=
  get_pdf_markdown_provenance env cache urls cache (cacheGood_refl env cache)

/-- C7: the cache is written only after a fully successful conversion: a
pass of the loop body either leaves the cache exactly unchanged (every
failure mode) or, when some fetch succeeded and its conversion succeeded
with markdown `m`, appends the single entry `{url, markdown := m}` under
the URL's key while reporting that same `m`. -/
theorem C7_cache_write_only_after_success (env : Env) (cache : Cache)
    (url : String) :
    (processUrl env cache url).2 = cache ∨
    ∃ a content m, env.fetch url a = FetchResult.ok content ∧
      env.partition_file content = ConvResult.ok m ∧
      (processUrl env cache url).1.doc.markdown = m ∧
      (processUrl env cache url).2 =
        (env.sha256 url, { url := url, markdown := m }) :: cache := by
  cases hc : cacheFind cache (env.sha256 url) with
  | some entry => left; rw [processUrl_hit env cache url entry hc]
  | none =>
    rw [processUrl_miss env cache url hc]
    cases hw : (attemptLoop env url 0 max_retries).cacheWrite with
    | none => left; rfl
    | some e =>
      obtain ⟨hmd, he, a, content, hf, hp⟩ :=
        attemptLoop_cacheWrite env url max_retries 0 e hw
      right
      refine ⟨a, content, e.markdown, hf, hp, hmd, ?_⟩
      rw [← he]

/-- C8: for a URL with no prior cache entry whose first fetch and
conversion succeed with markdown `m`, exactly one cache entry
`{url, markdown := m}` is created under the URL's key, the record carries
`m`, and a second invocation for the same URL is a cache hit: no events
(no network), same markdown `m`, cache unchanged — the entry round-trips
both string fields. -/
theorem C8_success_writes_entry_roundtrip (env : Env) (cache : Cache)
    (url content m : String)
    (hc : cacheFind cache (env.sha256 url) = none)
    (hf : env.fetch url 0 = FetchResult.ok content)
    (hp : env.partition_file content = ConvResult.ok m) :
    processUrl env cache url =
      ({ doc := { url := url, markdown := m },
         events := [Event.fetchAttempt url 0] },
       (env.sha256 url, { url := url, markdown := m }) :: cache) ∧
    processUrl env ((env.sha256 url, { url := url, markdown := m }) :: cache)
        url =
      ({ doc := { url := url, markdown := m }, events := [] },
       (env.sha256 url, { url := url, markdown := m }) :: cache) := by
  constructor
  · exact processUrl_success env cache url content m hc hf hp
  · exact processUrl_hit env _ url { url := url, markdown := m }
      (by simp [cacheFind])

/-- C8 witness: empty cache, fetch and conversion succeed, then the
second invocation hits the freshly written entry. -/
theorem C8_success_writes_entry_roundtrip_witness :
    processUrl envOk [] "https://x/a.pdf" =
      ({ doc := { url := "https://x/a.pdf", markdown := "# A" },
         events := [Event.fetchAttempt "https://x/a.pdf" 0] },
       [("https://x/a.pdf", { url := "https://x/a.pdf", markdown := "# A" })]) ∧
    processUrl envOk
        [("https://x/a.pdf", { url := "https://x/a.pdf", markdown := "# A" })]
        "https://x/a.pdf" =
      ({ doc := { url := "https://x/a.pdf", markdown := "# A" }, events := [] },
       [("https://x/a.pdf", { url := "https://x/a.pdf", markdown := "# A" })]) :=
  C8_success_writes_entry_roundtrip envOk [] "https://x/a.pdf" "pdfbytes" "# A"
    rfl rfl rfl

/-- C9: the command-line surface evaluated on concrete invocations.  With
no `--pdf` flag the built-in default list is used, and a single
comma-separated value is split into its URLs; but when `--pdf` is given
twice, argparse's `store` action keeps only the LAST occurrence — the
repeated flags are NOT all collected, although the module docstring and
the flag's help text advertise "Can be specified multiple times". -/
theorem C9_repeated_pdf_flags_keep_only_last :
    pdf_urls [] = _DEFAULT_PDFS ∧
    pdf_urls
        ["https://arxiv.org/pdf/2501.12948,https://arxiv.org/pdf/2403.04642"] =
      ["https://arxiv.org/pdf/2501.12948", "https://arxiv.org/pdf/2403.04642"] ∧
    pdf_urls
        ["https://arxiv.org/pdf/2501.12948", "https://arxiv.org/pdf/2403.04642"] =
      ["https://arxiv.org/pdf/2403.04642"] ∧
    pdf_urls
        ["https://arxiv.org/pdf/2501.12948", "https://arxiv.org/pdf/2403.04642"] ≠
      ["https://arxiv.org/pdf/2501.12948", "https://arxiv.org/pdf/2403.04642"] := by
  refine ⟨?_, ?_, ?_, ?_⟩ <;> decide

/-! ### Cache persistence across a batch (for C10) -/

/-- A pass of the loop body never removes or changes an existing cache
entry: the only write happens under a key that was absent. -/
theorem processUrl_preserves_entry (env : Env) (c : Cache) (url k : String)
    (e : CacheEntry) (h : cacheFind c k = some e) :
    cacheFind (processUrl env c url).2 k = some e := by
  cases hc : cacheFind c (env.sha256 url) with
  | some entry => rw [processUrl_hit env c url entry hc]; exact h
  | none =>
    rw [processUrl_miss env c url hc]
    cases hw : (attemptLoop env url 0 max_retries).cacheWrite with
    | none => exact h
    | some e2 =>
      have hne : env.sha256 url ≠ k := by
        intro heq
        rw [heq, h] at hc
        cases hc
      rw [cacheFind, if_neg hne]
      exact h

/-- Once the cache holds an entry for `u`'s key, every occurrence of `u`
anywhere in the batch is served from that entry with no events. -/
theorem get_pdf_markdown_hits (env : Env) (u : String) (e : CacheEntry) :
    ∀ (urls : List String) (c : Cache),
      cacheFind c (env.sha256 u) = some e →
      ∀ i (hi : i < urls.length), urls.get ⟨i, hi⟩ = u →
        ∃ hs : i < (get_pdf_markdown env c urls).1.length,
          (get_pdf_markdown env c urls).1.get ⟨i, hs⟩ =
            { doc := { url := u, markdown := e.markdown }, events := [] } := by
  intro urls
  induction urls with
  | nil => intro c _ i hi; cases hi
  | cons w rest ih =>
    intro c hfind i hi hu
    have hlen : (get_pdf_markdown env c (w :: rest)).1.length =
        (w :: rest).length := get_pdf_markdown_length env c (w :: rest)
    cases i with
    | zero =>
      have hw : w = u := hu
      subst hw
      refine ⟨by rw [hlen]; exact hi, ?_⟩
      show (get_pdf_markdown env c (w :: rest)).1.get ⟨0, _⟩ = _
      have hp := processUrl_hit env c w e hfind
      simp [get_pdf_markdown, hp]
    | succ j =>
      have hrec := ih (processUrl env c w).2
        (processUrl_preserves_entry env c w (env.sha256 u) e hfind)
        j (Nat.lt_of_succ_lt_succ hi) hu
      obtain ⟨hs, hval⟩ := hrec
      refine ⟨by rw [hlen]; exact hi, ?_⟩
      show (get_pdf_markdown env c (w :: rest)).1.get ⟨j + 1, _⟩ = _
      simpa [get_pdf_markdown] using hval

/-- C10: when the same URL occurs more than once in one batch and its
first occurrence succeeds (fetch then conversion yields `m`), the first
record carries `m` after one fetch, and every later occurrence of that
URL in the batch yields the record `{url := u, markdown := m}` with an
empty event trace — served from the entry written by the first
occurrence, with no further network fetch. -/
theorem C10_duplicates_served_from_cache (env : Env) (cache : Cache)
    (u content m : String) (rest : List String)
    (hc : cacheFind cache (env.sha256 u) = none)
    (hf : env.fetch u 0 = FetchResult.ok content)
    (hp : env.partition_file content = ConvResult.ok m) :
    (get_pdf_markdown env cache (u :: rest)).1.head? =
      some { doc := { url := u, markdown := m },
             events := [Event.fetchAttempt u 0] } ∧
    ∀ i (hi : i < rest.length), rest.get ⟨i, hi⟩ = u →
      ∃ hs : i + 1 < (get_pdf_markdown env cache (u :: rest)).1.length,
        (get_pdf_markdown env cache (u :: rest)).1.get ⟨i + 1, hs⟩ =
          { doc := { url := u, markdown := m }, events := [] } := by
  have h1 := processUrl_success env cache u content m hc hf hp
  constructor
  · simp [get_pdf_markdown, h1]
  · intro i hi hu
    have hfind : cacheFind (processUrl env cache u).2 (env.sha256 u) =
        some { url := u, markdown := m } := by
      rw [h1]
      simp [cacheFind]
    have hrec := get_pdf_markdown_hits env u { url := u, markdown := m }
      rest (processUrl env cache u).2 hfind i hi hu
    obtain ⟨hs, hval⟩ := hrec
    have hlen : (get_pdf_markdown env cache (u :: rest)).1.length =
        (u :: rest).length := get_pdf_markdown_length env cache (u :: rest)
    refine ⟨by rw [hlen]; exact Nat.succ_lt_succ hi, ?_⟩
    show (get_pdf_markdown env cache (u :: rest)).1.get ⟨i + 1, _⟩ = _
    simpa [get_pdf_markdown] using hval

/-- C10 witness: the same URL twice in a batch with a successful first
occurrence; the second record comes from the cache with no events. -/
theorem C10_duplicates_served_from_cache_witness :
    ∃ hs : 0 + 1 <
        (get_pdf_markdown envOk [] ("https://x/a.pdf" :: ["https://x/a.pdf"])).1.length,
      (get_pdf_markdown envOk [] ("https://x/a.pdf" :: ["https://x/a.pdf"])).1.get
          ⟨0 + 1, hs⟩ =
        { doc := { url := "https://x/a.pdf", markdown := "# A" }, events := [] } :=
  (C10_duplicates_served_from_cache envOk [] "https://x/a.pdf" "pdfbytes" "# A"
    ["https://x/a.pdf"] rfl rfl rfl).2 0 (by decide) rfl

end PaperPauper
